import Mathlib

/-!
Verification of the fpe-demo-mcp call-serving layer: authorization verifier
(authorizeOrThrow in src/http-server.ts and src/stdio-server, AuthService),
the FPE tool dispatcher (src/FPEService.ts and the stdio tool handler), and
the session registry (the transports map in src/http-server.ts).

JavaScript strings are modelled as Lean String (a wrapper around List Char);
the JavaScript string operations used by the source (startsWith, slice, trim,
split, toLowerCase, replace of non-digits, substring) are defined below on
the character list, matching the JavaScript semantics on the inputs the
server handles.
-/

namespace FpeDemo

/-- Character list of a string. -/
def chars (s : String) : List Char := s.data

/-- String from a character list. -/
def ofChars (l : List Char) : String := ⟨l⟩

/-- JavaScript s.startsWith p. -/
def jsStartsWith (s p : String) : Bool := p.data.isPrefixOf s.data

/-- JavaScript s.slice n / s.substring n : drop the first n characters. -/
def jsDropChars (s : String) (n : Nat) : String := ofChars (s.data.drop n)

/-- JavaScript s.length (all inputs here are in the basic plane). -/
def jsLen (s : String) : Nat := s.data.length

/-- Whitespace as trimmed by JavaScript trim (ASCII part). -/
def isJsSpace (c : Char) : Bool :=
  c = ' ' || c = '\t' || c = '\n' || c = '\r' || c = '\x0b' || c = '\x0c'

/-- JavaScript s.trim. -/
def jsTrim (s : String) : String :=
  ofChars (((s.data.dropWhile isJsSpace).reverse.dropWhile isJsSpace).reverse)

/-- Splitting a character list at a separator, keeping empty fields, as
JavaScript split does. -/
def splitCharAux (sep : Char) : List Char → List Char → List (List Char)
  | [], acc => [acc.reverse]
  | c :: cs, acc =>
    if c = sep then acc.reverse :: splitCharAux sep cs []
    else splitCharAux sep cs (c :: acc)

/-- JavaScript s.split of a single space, as used by AuthService. -/
def jsSplitSpace (s : String) : List String := (splitCharAux ' ' s.data []).map ofChars

/-- JavaScript s.toLowerCase (ASCII part, enough for scheme names). -/
def toLowerStr (s : String) : String := ofChars (s.data.map Char.toLower)

/-- JavaScript value.replace of all non-digits by nothing, from
FPEService.normalizeDigits. -/
def normalizeDigits (s : String) : String := ofChars (s.data.filter Char.isDigit)

/-- The test of the regular expression matching one or more digits and
nothing else, used by FPEService for both encrypt and decrypt validation. -/
def matchDigitsPlus (s : String) : Bool := !s.data.isEmpty && s.data.all Char.isDigit

/-- Occurrence of a pattern as a contiguous run inside a character list. -/
def hasInfix (pat : List Char) : List Char → Bool
  | [] => pat.isEmpty
  | c :: cs => pat.isPrefixOf (c :: cs) || hasInfix pat cs

/-- Substring containment, the effect of the two regular expression tests in
the stdio tool handler catch block. -/
def containsSub (s pat : String) : Bool := hasInfix pat.data s.data

/-! ### Authorization data model -/

/-- Decoded claims of a verified JWT (arbitrary key and value pairs). -/
abbrev JwtPayload := List (String × String)

/-- The four enforcement modes of AUTH_MODE: authless is the spec mode open,
debug is permissive, test is dual, production is strict. -/
inductive AuthMode
  | authless
  | debug
  | test
  | production
deriving DecidableEq

/-- Configuration fixed at startup: the enforcement mode, the shared secret
(AUTH_TOKEN, default demo-secret), and the JWT verifier.  jwtVerify models
AuthService.verifyJwt, that is jsonwebtoken verify closed over the signing
key (AUTH_JWT_SECRET or the secret), algorithm HS256, clock tolerance 5
seconds, and the optional issuer and audience equality checks; it yields the
payload for a validly signed token and nothing otherwise, never raising. -/
structure AuthConfig where
  mode : AuthMode
  secret : String
  jwtVerify : String → Option JwtPayload

/-- The JavaScript value returned by AuthService.verifyAuthorizationHeader:
a payload object, a boolean, or null. -/
inductive JsAuthValue
  | payload (p : JwtPayload)
  | bool (b : Bool)
  | jsNull
deriving DecidableEq

/-- JavaScript truthiness of such a value: objects and true are truthy,
false and null are falsy. -/
def JsAuthValue.truthy : JsAuthValue → Bool
  | .payload _ => true
  | .bool b => b
  | .jsNull => false

/-- AuthService.extractBearer: split the header at spaces, require a second
field and a scheme that lowercases to bearer, and return that second field. -/
def extractBearer (authHeader : Option String) : Option String :=
  match authHeader with
  | none => none
  | some h =>
    if h = "" then none
    else
      let parts := jsSplitSpace h
      let scheme := parts.headD ""
      match parts[1]? with
      | none => none
      | some tok => if tok = "" || toLowerStr scheme ≠ "bearer" then none else some tok

/-- AuthService.verifyAuthorizationHeader: mode-dependent verification of an
authorization header, returning a JavaScript value (payload, boolean or
null). -/
def verifyAuthorizationHeader (cfg : AuthConfig) (authHeader : Option String) : JsAuthValue :=
  if cfg.mode = .authless then .bool true
  else
    match extractBearer authHeader with
    | none => .bool false
    | some token =>
      match cfg.mode with
      | .authless => .bool true
      | .debug => .bool true
      | .test =>
        match cfg.jwtVerify token with
        | some p => .payload p
        | none => .bool (token = cfg.secret)
      | .production =>
        match cfg.jwtVerify token with
        | some p => .payload p
        | none => .jsNull

/-- Outcome of the authorizeOrThrow gate: normal return or a thrown
Unauthorized McpError with its message. -/
inductive AuthOutcome
  | allowed
  | unauthorized (msg : String)
deriving DecidableEq

/-- An outcome that throws. -/
def AuthOutcome.isDenied : AuthOutcome → Bool
  | .allowed => false
  | .unauthorized _ => true

/-- authorizeOrThrow from src/http-server.ts: authless and debug return at
once; otherwise the Bearer test is a case sensitive startsWith, the bearer
value is the remainder after the seven character Bearer prefix, trimmed, and
the JWT check goes through AuthService.verifyAuthorizationHeader only when
the Bearer test held. -/
def authorizeOrThrow (cfg : AuthConfig) (token : Option String) : AuthOutcome :=
  if cfg.mode = .authless ∨ cfg.mode = .debug then .allowed
  else
    let isBearer : Bool :=
      match token with
      | some t => jsStartsWith t "Bearer "
      | none => false
    let bearerValue : Option String :=
      if isBearer then
        match token with
        | some t => some (jsTrim (jsDropChars t 7))
        | none => none
      else none
    let jwtPayload : JsAuthValue :=
      if isBearer then verifyAuthorizationHeader cfg token else .jsNull
    if cfg.mode = .test then
      let sharedOk : Bool :=
        match bearerValue with
        | some v => v = cfg.secret
        | none =>
          match token with
          | some t => t = cfg.secret
          | none => false
      if !jwtPayload.truthy && !sharedOk then
        .unauthorized "Unauthorized (test mode: need valid JWT or AUTH_TOKEN)"
      else .allowed
    else
      if !jwtPayload.truthy then
        .unauthorized "Unauthorized (production mode: Bearer JWT required)"
      else .allowed

/-- authorizeOrThrow from the stdio server: the token comes from the tool
arguments with empty string default; in test mode the shared secret
comparison is against the raw token, with no Bearer stripping. -/
def stdioAuthorizeOrThrow (cfg : AuthConfig) (userToken : Option String) : AuthOutcome :=
  let token := userToken.getD ""
  if cfg.mode = .authless ∨ cfg.mode = .debug then .allowed
  else
    let maybeJwt : JsAuthValue :=
      if jsStartsWith token "Bearer " then verifyAuthorizationHeader cfg (some token)
      else .jsNull
    if cfg.mode = .test then
      let sharedOk : Bool := token = cfg.secret
      if !maybeJwt.truthy && !sharedOk then
        .unauthorized "Unauthorized (test mode: need valid JWT or AUTH_TOKEN)"
      else .allowed
    else
      if !maybeJwt.truthy then
        .unauthorized "Unauthorized (production mode: Bearer JWT required)"
      else .allowed

/-! ### FPE service and tool dispatcher -/

/-- Error taxonomy of the thrown McpError values in the dispatcher paths. -/
inductive FpeError
  | invalidParams (msg : String)
  | invalidRequest (msg : String)
  | internalError (msg : String)
deriving DecidableEq

instance {ε α : Type} [DecidableEq ε] [DecidableEq α] : DecidableEq (Except ε α)
  | .error e, .error f =>
    if h : e = f then .isTrue (by rw [h]) else .isFalse (by intro hh; cases hh; exact h rfl)
  | .error _, .ok _ => .isFalse (by intro h; cases h)
  | .ok _, .error _ => .isFalse (by intro h; cases h)
  | .ok a, .ok b =>
    if h : a = b then .isTrue (by rw [h]) else .isFalse (by intro hh; cases hh; exact h rfl)

/-- Whether a result is an InvalidParams failure. -/
def isInvalidParamsResult : Except FpeError String → Bool
  | .error (.invalidParams _) => true
  | _ => false

/-- Whether a result is an InternalError failure. -/
def isInternalErrorResult : Except FpeError String → Bool
  | .error (.internalError _) => true
  | _ => false

/-- The external MYSTO FF3 cipher instance, an external collaborator: each
operation either returns a string or raises with a message. -/
structure FF3Cipher where
  enc : String → Except String String
  dec : String → Except String String

/-- Minimum digit count accepted by the transform (MIN_LENGTH). -/
def MIN_LENGTH : Nat := 6

/-- Maximum digit count accepted by the transform (MAX_LENGTH). -/
def MAX_LENGTH : Nat := 56

/-- FPEService.isEncrypted: the value carries the ENC_FPE: tag. -/
def isEncrypted (value : String) : Bool := jsStartsWith value "ENC_FPE:"

/-- FPEService.tag: prepend the ENC_FPE: marker. -/
def tagFpe (encryptedDigits : String) : String := "ENC_FPE:" ++ encryptedDigits

/-- FPEService.encrypt.  The second component records the arguments of every
invocation of the external forward operation, so that non-invocation is a
provable fact of the model.  The catch around the cipher call rethrows any
cipher failure as InvalidParams with the FPE encryption failed message. -/
def FPEService.encrypt (c : FF3Cipher) (plaintext : String) :
    Except FpeError String × List String :=
  if plaintext = "" then
    (.error (.invalidParams "Cannot encrypt empty value"), [])
  else if isEncrypted plaintext then
    (.ok plaintext, [])
  else
    let digits := normalizeDigits plaintext
    if !matchDigitsPlus digits then
      (.error (.invalidParams "FPE radix-10 requires digits only"), [])
    else if jsLen digits < MIN_LENGTH ∨ MAX_LENGTH < jsLen digits then
      (.error (.invalidParams
        ("FPE length must be 6-56 digits (got " ++ toString (jsLen digits) ++ ")")), [])
    else
      match c.enc digits with
      | .ok encryptedDigits => (.ok (tagFpe encryptedDigits), [digits])
      | .error m => (.error (.invalidParams ("FPE encryption failed: " ++ m)), [digits])

/-- FPEService.decrypt, with the arguments of every invocation of the
external backward operation recorded in the second component. -/
def FPEService.decrypt (c : FF3Cipher) (encrypted : String) :
    Except FpeError String × List String :=
  if encrypted = "" then
    (.error (.invalidParams "Cannot decrypt empty value"), [])
  else if !isEncrypted encrypted then
    (.error (.invalidParams "Value does not appear to be encrypted (missing ENC_FPE: prefix)"), [])
  else
    let encryptedDigits := jsDropChars encrypted 8
    if !matchDigitsPlus encryptedDigits then
      (.error (.invalidParams "Invalid encrypted format - expected digits only after ENC_FPE:"), [])
    else
      match c.dec encryptedDigits with
      | .ok decryptedDigits => (.ok decryptedDigits, [encryptedDigits])
      | .error m => (.error (.invalidParams ("FPE decryption failed: " ++ m)), [encryptedDigits])

/-- An exception reaching the stdio tool handler catch block: either a
McpError or some other raised error carrying a message. -/
inductive ThrownError
  | mcp (e : FpeError)
  | raw (msg : String)

/-- The catch block of MCPServer.setupToolHandlers: McpError values are
rethrown unchanged; other errors are mapped to InvalidParams when the
message matches the length or charset patterns, and to InternalError
otherwise. -/
def toolCatch : ThrownError → FpeError
  | .mcp e => e
  | .raw msg =>
    if containsSub msg "FPE radix-10 requires" || containsSub msg "FPE length must be" then
      .invalidParams msg
    else
      .internalError ("Tool execution failed: " ++ msg)

/-- The fpe_encrypt branch of the stdio call handler: authorize, require a
non-empty value, run FPEService.encrypt, and pass every thrown McpError
through the catch block. -/
def handleEncryptTool (cfg : AuthConfig) (c : FF3Cipher)
    (value userToken : Option String) : Except FpeError String :=
  match stdioAuthorizeOrThrow cfg userToken with
  | .unauthorized m => .error (toolCatch (.mcp (.invalidRequest m)))
  | .allowed =>
    match value with
    | none => .error (toolCatch (.mcp (.invalidParams "Missing required parameter: value")))
    | some v =>
      if v = "" then
        .error (toolCatch (.mcp (.invalidParams "Missing required parameter: value")))
      else
        match (FPEService.encrypt c v).1 with
        | .ok encrypted => .ok encrypted
        | .error e => .error (toolCatch (.mcp e))

/-! ### Session registry -/

/-- A transport handle, identified abstractly. -/
abbrev Transport := Nat

/-- The transports map of src/http-server.ts: a JavaScript object keyed by
session id. -/
abbrev Registry := List (String × Transport)

/-- JavaScript property read transports of sid. -/
def Registry.find : Registry → String → Option Transport
  | [], _ => none
  | (k, v) :: r, s => if k = s then some v else Registry.find r s

/-- JavaScript property write: transports of sid becomes tr, overwriting any
existing entry for the same id. -/
def Registry.set : Registry → String → Transport → Registry
  | [], k, v => [(k, v)]
  | (k₁, v₁) :: r, k, v => if k₁ = k then (k, v) :: r else (k₁, v₁) :: Registry.set r k v

/-- JavaScript delete transports of sid: removes the entry when present, a
silent no-op when absent. -/
def Registry.del : Registry → String → Registry
  | [], _ => []
  | (k₁, v₁) :: r, k => if k₁ = k then Registry.del r k else (k₁, v₁) :: Registry.del r k

/-- The keys currently stored. -/
def Registry.keys (r : Registry) : List String := r.map Prod.fst

/-- Session initialization on the POST endpoint for an initialize request:
the transport is created with sessionIdGenerator drawing one fresh random
UUID (modelled as the next element of the generator stream, since the
generator takes no arguments and consults no state), and onsessioninitialized
stores the transport under that id.  Returns the session id, the advanced
stream position, and the new registry. -/
def sessionCreate (gen : Nat → String) (ctr : Nat) (tr : Transport) (r : Registry) :
    String × Nat × Registry :=
  let sid := gen ctr
  (sid, ctr + 1, Registry.set r sid tr)

/-- Response classes of the DELETE endpoint for session termination. -/
inductive DeleteResult
  | sessionNotFound
  | handled
deriving DecidableEq

/-- The DELETE endpoint: a missing, empty, or unknown session id is answered
with the 400 Session not found error and the registry is untouched; a known
id is handed to the transport, whose close triggers the onclose delete of
the entry. -/
def deleteEndpoint (r : Registry) (sid : Option String) : DeleteResult × Registry :=
  match sid with
  | none => (.sessionNotFound, r)
  | some s =>
    if s = "" then (.sessionNotFound, r)
    else
      match Registry.find r s with
      | none => (.sessionNotFound, r)
      | some _ => (.handled, Registry.del r s)

/-! ### Spec-side definitions used only to compare the spec wording with the
source behaviour -/

/-- Modelled from the spec wording for claim C2: the credential after
stripping an optional Bearer prefix and trimming whitespace. -/
def specStripBearerTrim (t : String) : String :=
  jsTrim (if jsStartsWith t "Bearer " then jsDropChars t 7 else t)

/-- Modelled from the spec wording for claim C2: in dual mode a call is
allowed iff the credential verifies as a signed token or its stripped and
trimmed form equals the shared secret; an absent credential is denied. -/
def specDualAllows (cfg : AuthConfig) (token : Option String) : Bool :=
  match token with
  | none => false
  | some t =>
    (cfg.jwtVerify (specStripBearerTrim t)).isSome || specStripBearerTrim t = cfg.secret

/-- Modelled from the spec wording for claim C5: create regenerates on a
collision until the drawn id is absent from the registry (with fuel to make
the recursion evidently terminating). -/
def specCreateRetry : Nat → (Nat → String) → Nat → Registry → Option (String × Nat)
  | 0, _, _, _ => none
  | fuel + 1, gen, ctr, r =>
    if (Registry.find r (gen ctr)).isSome then specCreateRetry fuel gen (ctr + 1) r
    else some (gen ctr, ctr + 1)

/-! ### Concrete instances used by witnesses and counterexamples -/

/-- A verifier under which no string is a validly signed token. -/
def noJwt : String → Option JwtPayload := fun _ => none

/-- Production (strict) configuration with the default shared secret. -/
def cfgProd : AuthConfig := { mode := .production, secret := "demo-secret", jwtVerify := noJwt }

/-- Test (dual) configuration with the default shared secret. -/
def cfgTest : AuthConfig := { mode := .test, secret := "demo-secret", jwtVerify := noJwt }

/-- Debug (permissive) configuration. -/
def cfgDebug : AuthConfig := { mode := .debug, secret := "demo-secret", jwtVerify := noJwt }

/-- Authless (open) configuration. -/
def cfgAuthless : AuthConfig := { mode := .authless, secret := "demo-secret", jwtVerify := noJwt }

/-- The identity cipher: a legitimate instance of the external transform
contract (round-trips and preserves the digit format). -/
def cId : FF3Cipher := { enc := fun s => .ok s, dec := fun s => .ok s }

/-- The reversing cipher: another legitimate instance of the external
transform contract. -/
def cRev : FF3Cipher :=
  { enc := fun s => .ok (ofChars s.data.reverse), dec := fun s => .ok (ofChars s.data.reverse) }

/-- A cipher whose operations raise a failure unrelated to the length or
charset domain rules. -/
def cFail : FF3Cipher :=
  { enc := fun _ => .error "unexpected keysize", dec := fun _ => .error "unexpected keysize" }

/-! ### Helper lemmas -/

theorem isPrefixOf_append (l₁ l₂ : List Char) : l₁.isPrefixOf (l₁ ++ l₂) = true := by
  induction l₁ with
  | nil => simp [List.isPrefixOf]
  | cons c cs ih => simp [List.isPrefixOf, ih]

theorem jsStartsWith_append (p s : String) : jsStartsWith (p ++ s) p = true := by
  unfold jsStartsWith
  rw [String.data_append]
  exact isPrefixOf_append p.data s.data

theorem jsDropChars_append (p s : String) : jsDropChars (p ++ s) (jsLen p) = s := by
  unfold jsDropChars jsLen
  rw [String.data_append, List.drop_left]
  rfl

theorem isEncrypted_tag (e : String) : isEncrypted (tagFpe e) = true :=
  jsStartsWith_append "ENC_FPE:" e

theorem tag_ne_empty (e : String) : tagFpe e ≠ "" := by
  intro h
  have hd := congrArg String.data h
  simp [tagFpe, String.data_append] at hd

theorem isEncrypted_ne_empty {z : String} (h : isEncrypted z = true) : z ≠ "" := by
  intro hz
  rw [hz] at h
  exact absurd h (by decide)

theorem jsDropChars_tag (e : String) : jsDropChars (tagFpe e) 8 = e :=
  jsDropChars_append "ENC_FPE:" e

theorem matchDigitsPlus_normalize (x : String) (h : 1 ≤ jsLen (normalizeDigits x)) :
    matchDigitsPlus (normalizeDigits x) = true := by
  unfold matchDigitsPlus normalizeDigits ofChars
  unfold normalizeDigits ofChars jsLen at h
  have hall : (x.data.filter Char.isDigit).all Char.isDigit = true := by
    simp [List.all_eq_true, List.mem_filter]
  have hne : (x.data.filter Char.isDigit).isEmpty = false := by
    cases he : x.data.filter Char.isDigit with
    | nil => rw [he] at h; simp at h
    | cons a l => rfl
  simp [hne, hall]

/-- In production mode the verifier result is falsy whenever the extracted
bearer chunk of the credential is not a validly signed token. -/
theorem verify_production_falsy (cfg : AuthConfig) (hm : cfg.mode = .production)
    (t : Option String)
    (h : ∀ v, extractBearer t = some v → cfg.jwtVerify v = none) :
    (verifyAuthorizationHeader cfg t).truthy = false := by
  unfold verifyAuthorizationHeader
  rw [hm]
  cases hx : extractBearer t with
  | none => simp [JsAuthValue.truthy]
  | some v => simp [h v hx, JsAuthValue.truthy]

/-- In production mode the HTTP gate denies any credential whose extracted
bearer chunk is not a validly signed token. -/
theorem authorize_production_denied (cfg : AuthConfig) (hm : cfg.mode = .production)
    (t : Option String)
    (h : ∀ v, extractBearer t = some v → cfg.jwtVerify v = none) :
    (authorizeOrThrow cfg t).isDenied = true := by
  unfold authorizeOrThrow
  rw [hm]
  have hv := verify_production_falsy cfg hm t h
  cases t with
  | none => simp [JsAuthValue.truthy, AuthOutcome.isDenied]
  | some s =>
    by_cases hb : jsStartsWith s "Bearer " = true
    · simp [hb, hv, AuthOutcome.isDenied]
    · simp [hb, JsAuthValue.truthy, AuthOutcome.isDenied]

/-- In production mode the stdio gate denies any credential whose extracted
bearer chunk is not a validly signed token. -/
theorem stdio_production_denied (cfg : AuthConfig) (hm : cfg.mode = .production)
    (s : String)
    (h : ∀ v, extractBearer (some s) = some v → cfg.jwtVerify v = none) :
    (stdioAuthorizeOrThrow cfg (some s)).isDenied = true := by
  unfold stdioAuthorizeOrThrow
  rw [hm]
  have hv := verify_production_falsy cfg hm (some s) h
  by_cases hb : jsStartsWith s "Bearer " = true
  · simp [hb, hv, AuthOutcome.isDenied]
  · simp [hb, JsAuthValue.truthy, AuthOutcome.isDenied]

/-- Any already tagged value is returned unchanged by encrypt, with no
invocation of the forward operation. -/
theorem encrypt_tagged (c : FF3Cipher) (z : String) (h : isEncrypted z = true) :
    FPEService.encrypt c z = (.ok z, []) := by
  unfold FPEService.encrypt
  rw [if_neg (isEncrypted_ne_empty h), if_pos h]

/-- A successful encrypt always returns a tagged value. -/
theorem encrypt_ok_isEncrypted {c : FF3Cipher} {x y : String} {tr : List String}
    (h : FPEService.encrypt c x = (.ok y, tr)) : isEncrypted y = true := by
  unfold FPEService.encrypt at h
  by_cases h0 : x = ""
  · rw [if_pos h0] at h; simp at h
  · rw [if_neg h0] at h
    by_cases h1 : isEncrypted x = true
    · rw [if_pos h1] at h
      have hxy : x = y := by
        have := congrArg Prod.fst h
        simpa using this
      rw [← hxy]; exact h1
    · rw [if_neg h1] at h
      by_cases h2 : (!matchDigitsPlus (normalizeDigits x)) = true
      · rw [if_pos h2] at h; simp at h
      · rw [if_neg h2] at h
        by_cases h3 : jsLen (normalizeDigits x) < MIN_LENGTH ∨ MAX_LENGTH < jsLen (normalizeDigits x)
        · rw [if_pos h3] at h; simp at h
        · rw [if_neg h3] at h
          cases he : c.enc (normalizeDigits x) with
          | ok e =>
            rw [he] at h
            simp only [Prod.mk.injEq] at h
            have hty : tagFpe e = y := by
              have := h.1
              simpa using this
            rw [← hty]; exact isEncrypted_tag e
          | error m =>
            rw [he] at h
            simp at h

/-! ### Claims -/

/-- Claim C1: in strict (production) mode, every credential that is exactly
the configured shared secret, with or without the Bearer prefix, and is not
a validly signed token, is denied with an Unauthorized outcome, on both the
HTTP and the stdio gates; the shared secret is never accepted in strict
mode. -/
theorem strict_mode_rejects_shared_secret (cfg : AuthConfig)
    (hm : cfg.mode = .production)
    (h1 : ∀ v, extractBearer (some cfg.secret) = some v → cfg.jwtVerify v = none)
    (h2 : ∀ v, extractBearer (some ("Bearer " ++ cfg.secret)) = some v → cfg.jwtVerify v = none) :
    (authorizeOrThrow cfg (some cfg.secret)).isDenied = true ∧
    (authorizeOrThrow cfg (some ("Bearer " ++ cfg.secret))).isDenied = true ∧
    (stdioAuthorizeOrThrow cfg (some cfg.secret)).isDenied = true ∧
    (stdioAuthorizeOrThrow cfg (some ("Bearer " ++ cfg.secret))).isDenied = true :=
  ⟨authorize_production_denied cfg hm _ h1,
   authorize_production_denied cfg hm _ h2,
   stdio_production_denied cfg hm _ h1,
   stdio_production_denied cfg hm _ h2⟩

/-- Witness for claim C1 at the default configuration. -/
theorem strict_mode_rejects_shared_secret_witness :
    (authorizeOrThrow cfgProd (some "demo-secret")).isDenied = true ∧
    (authorizeOrThrow cfgProd (some ("Bearer " ++ "demo-secret"))).isDenied = true ∧
    (stdioAuthorizeOrThrow cfgProd (some "demo-secret")).isDenied = true ∧
    (stdioAuthorizeOrThrow cfgProd (some ("Bearer " ++ "demo-secret"))).isDenied = true :=
  strict_mode_rejects_shared_secret cfgProd rfl (fun _ _ => rfl) (fun _ _ => rfl)

/-- Claim C10: in permissive (debug) mode authorization always allows, on
both gates: an absent credential is allowed and any present credential is
allowed; moreover a present credential from which a bearer value extracts
makes the verifier truthy. -/
theorem debug_mode_always_allows (cfg : AuthConfig) (t : Option String)
    (hm : cfg.mode = .debug) :
    authorizeOrThrow cfg t = .allowed ∧
    stdioAuthorizeOrThrow cfg t = .allowed ∧
    (∀ v, extractBearer t = some v → (verifyAuthorizationHeader cfg t).truthy = true) := by
  refine ⟨?_, ?_, ?_⟩
  · unfold authorizeOrThrow
    rw [if_pos (Or.inr hm)]
  · unfold stdioAuthorizeOrThrow
    rw [if_pos (Or.inr hm)]
  · intro v hv
    unfold verifyAuthorizationHeader
    rw [hm, hv]
    simp [JsAuthValue.truthy]

/-- Witness for claim C10 at the debug configuration. -/
theorem debug_mode_always_allows_witness :
    authorizeOrThrow cfgDebug (some "Bearer x") = .allowed ∧
    stdioAuthorizeOrThrow cfgDebug (some "Bearer x") = .allowed ∧
    (verifyAuthorizationHeader cfgDebug (some "Bearer x")).truthy = true :=
  have h := debug_mode_always_allows cfgDebug (some "Bearer x") rfl
  ⟨h.1, h.2.1, h.2.2 "x" (by decide)⟩

/-- Claim C8: encrypt is idempotent on its own output: whenever encrypt
succeeds with result y, encrypting y succeeds with the same result and does
not invoke the external forward operation; in particular any value already
carrying the ENC_FPE: tag is returned unchanged with no invocation. -/
theorem encrypt_idempotent (c : FF3Cipher) (x y : String) (tr : List String)
    (h : FPEService.encrypt c x = (.ok y, tr)) :
    FPEService.encrypt c y = (.ok y, []) ∧
    (∀ z, isEncrypted z = true → FPEService.encrypt c z = (.ok z, [])) :=
  ⟨encrypt_tagged c y (encrypt_ok_isEncrypted h), fun z hz => encrypt_tagged c z hz⟩

/-- Witness for claim C8: the example digits encrypt to a tagged value and
re-encrypting it returns it unchanged with no transform invocation. -/
theorem encrypt_idempotent_witness :
    FPEService.encrypt cId "ENC_FPE:123456789" = (.ok "ENC_FPE:123456789", []) :=
  (encrypt_idempotent cId "123-45-6789" "ENC_FPE:123456789" ["123456789"] (by decide)).1

/-- In test mode the verifier is truthy exactly when a bearer chunk extracts
and is either a validly signed token or equal to the shared secret. -/
theorem verify_test_truthy (cfg : AuthConfig) (hm : cfg.mode = .test) (t : Option String) :
    (verifyAuthorizationHeader cfg t).truthy = true ↔
      ∃ v, extractBearer t = some v ∧ ((cfg.jwtVerify v).isSome ∨ v = cfg.secret) := by
  unfold verifyAuthorizationHeader
  rw [hm]
  cases hx : extractBearer t with
  | none => simp [JsAuthValue.truthy]
  | some v =>
    cases hj : cfg.jwtVerify v with
    | none => simp [JsAuthValue.truthy, hj]
    | some p => simp [JsAuthValue.truthy, hj]

/-- Claim C9 counterexample: AuthService.extractBearer accepts a scheme that
differs in case, so the credential bearer x yields the bearer value x, and
for a Bearer credential with spaces in the value the extraction yields only
the second space separated field, not the trimmed remainder. -/
theorem bearer_extraction_cex :
    extractBearer (some "bearer x") = some "x" ∧
    extractBearer (some "Bearer a b") = some "a" ∧
    jsTrim (jsDropChars "Bearer a b" 7) = "a b" := by decide

/-- Claim C9 amended: extractBearer yields v exactly when the second space
separated field of the header is the non-empty v and the first field
lowercases to bearer (so the scheme match is case insensitive and the value
is not the trimmed remainder); the authorizeOrThrow gate itself, in
production mode, treats a credential as bearer-scheme only when it starts
with the case sensitive Bearer prefix, denying every other credential. -/
theorem bearer_extraction_characterization (hdr v t : String) (cfg : AuthConfig) :
    (extractBearer (some hdr) = some v ↔
       v ≠ "" ∧ (jsSplitSpace hdr)[1]? = some v ∧
       toLowerStr ((jsSplitSpace hdr).headD "") = "bearer") ∧
    (cfg.mode = .production → jsStartsWith t "Bearer " = false →
       (authorizeOrThrow cfg (some t)).isDenied = true) := by
  constructor
  · by_cases h0 : hdr = ""
    · subst h0
      simp [extractBearer, jsSplitSpace, splitCharAux]
    · cases hx : (jsSplitSpace hdr)[1]? with
      | none => simp [extractBearer, h0, hx]
      | some tok =>
        by_cases h1 : tok = ""
        · subst h1
          simp [extractBearer, h0, hx]
          intro hv hv2
          exact absurd hv2.symm hv
        · by_cases h2 : toLowerStr ((jsSplitSpace hdr).head?.getD "") = "bearer"
          · simp [extractBearer, h0, hx, h1, h2]
            intro hb2 hv
            exact h1 (hb2.trans hv)
          · simp [extractBearer, h0, hx, h1, h2]
  · intro hm hb
    unfold authorizeOrThrow
    rw [hm]
    simp [hb, JsAuthValue.truthy, AuthOutcome.isDenied]

/-- Witness for the amended claim C9. -/
theorem bearer_extraction_characterization_witness :
    (extractBearer (some "Bearer tok") = some "tok" ↔
       "tok" ≠ "" ∧ (jsSplitSpace "Bearer tok")[1]? = some "tok" ∧
       toLowerStr ((jsSplitSpace "Bearer tok").headD "") = "bearer") ∧
    (authorizeOrThrow cfgProd (some "not-bearer")).isDenied = true :=
  have h := bearer_extraction_characterization "Bearer tok" "tok" "not-bearer" cfgProd
  ⟨h.1, h.2 rfl (by decide)⟩

/-- Claim C2 counterexample: in dual (test) mode, with no validly signed
tokens at all, a credential that is the shared secret with a leading space
satisfies the spec condition (strip optional Bearer, trim, compare) yet is
denied, and a Bearer credential whose value is the shared secret followed by
further text fails the spec condition yet is allowed. -/
theorem dual_mode_spec_mismatch_cex :
    specStripBearerTrim " demo-secret" = "demo-secret" ∧
    specDualAllows cfgTest (some " demo-secret") = true ∧
    authorizeOrThrow cfgTest (some " demo-secret") ≠ .allowed ∧
    specDualAllows cfgTest (some "Bearer demo-secret x") = false ∧
    authorizeOrThrow cfgTest (some "Bearer demo-secret x") = .allowed := by decide

/-- Claim C2 amended: in dual (test) mode a call is allowed iff a credential
is present and either (for a credential with the case sensitive Bearer
prefix) the extracted second space separated field is a validly signed token
or equals the shared secret, or the remainder after the Bearer prefix,
trimmed, equals the shared secret; a credential without the Bearer prefix is
allowed iff it equals the shared secret verbatim, with no trimming.  An
absent credential is denied. -/
theorem test_mode_characterization (cfg : AuthConfig) (hm : cfg.mode = .test)
    (t : Option String) :
    authorizeOrThrow cfg t = .allowed ↔
      ∃ s, t = some s ∧
        (if jsStartsWith s "Bearer " = true then
           ((∃ v, extractBearer (some s) = some v ∧
               ((cfg.jwtVerify v).isSome ∨ v = cfg.secret)) ∨
            jsTrim (jsDropChars s 7) = cfg.secret)
         else s = cfg.secret) := by
  unfold authorizeOrThrow
  rw [hm]
  cases t with
  | none => simp [JsAuthValue.truthy]
  | some s =>
    have hv := verify_test_truthy cfg hm (some s)
    by_cases hb : jsStartsWith s "Bearer " = true
    · by_cases ht : (verifyAuthorizationHeader cfg (some s)).truthy = true
      · simp [hb, ht, hv.mp ht]
      · by_cases hs : jsTrim (jsDropChars s 7) = cfg.secret
        · simp [hb, ht, hs]
        · simp only [Bool.not_eq_true] at ht
          simp [hb, ht, hs]
          intro x hx
          constructor
          · cases hj : cfg.jwtVerify x with
            | none => rfl
            | some p =>
              have htr := hv.mpr ⟨x, hx, Or.inl (by simp [hj])⟩
              rw [ht] at htr
              exact absurd htr (by simp)
          · intro hxs
            have htr := hv.mpr ⟨x, hx, Or.inr hxs⟩
            rw [ht] at htr
            exact absurd htr (by simp)
    · simp [hb, JsAuthValue.truthy]

/-- Witness for the amended claim C2. -/
theorem test_mode_characterization_witness :
    authorizeOrThrow cfgTest (some "Bearer demo-secret") = .allowed :=
  (test_mode_characterization cfgTest rfl (some "Bearer demo-secret")).mpr
    ⟨"Bearer demo-secret", rfl, by
      rw [if_pos (show jsStartsWith "Bearer demo-secret" "Bearer " = true by decide)]
      exact Or.inr (by decide)⟩

/-- Claim C3 counterexample: the identity cipher is a legitimate instance of
the external transform; an input with separators has a normalized form
inside the 6 to 56 digit domain, yet encrypt followed by decrypt returns
only the digits, not the input; and with the reversing cipher an already
tagged input inside the domain does not round-trip either. -/
theorem roundtrip_format_loss_cex :
    MIN_LENGTH ≤ jsLen (normalizeDigits "123-456") ∧
    jsLen (normalizeDigits "123-456") ≤ MAX_LENGTH ∧
    (FPEService.encrypt cId "123-456").1 = .ok "ENC_FPE:123456" ∧
    (FPEService.decrypt cId "ENC_FPE:123456").1 = .ok "123456" ∧
    ("123456" : String) ≠ "123-456" ∧
    MIN_LENGTH ≤ jsLen (normalizeDigits "ENC_FPE:654321") ∧
    jsLen (normalizeDigits "ENC_FPE:654321") ≤ MAX_LENGTH ∧
    (FPEService.encrypt cRev "ENC_FPE:654321").1 = .ok "ENC_FPE:654321" ∧
    (FPEService.decrypt cRev "ENC_FPE:654321").1 = .ok "123456" ∧
    ("123456" : String) ≠ "ENC_FPE:654321" := by decide

/-- Claim C3 amended: for any cipher meeting the external transform contract
(success with a digit string output on the 6 to 56 digit domain, and
backward inverting forward), and any untagged input whose normalized form
lies in the domain, encrypt succeeds and decrypt of its result returns the
normalized digits-only form of the input; when the input is itself its
normalized form it round-trips exactly. -/
theorem roundtrip_normalized (c : FF3Cipher) (x : String)
    (hx : isEncrypted x = false)
    (hlo : MIN_LENGTH ≤ jsLen (normalizeDigits x))
    (hhi : jsLen (normalizeDigits x) ≤ MAX_LENGTH)
    (henc : ∀ s, matchDigitsPlus s = true → MIN_LENGTH ≤ jsLen s → jsLen s ≤ MAX_LENGTH →
        ∃ e, c.enc s = .ok e ∧ matchDigitsPlus e = true)
    (hround : ∀ s e, c.enc s = .ok e → c.dec e = .ok s) :
    ∃ y, (FPEService.encrypt c x).1 = .ok y ∧
      (FPEService.decrypt c y).1 = .ok (normalizeDigits x) ∧
      (normalizeDigits x = x → (FPEService.decrypt c y).1 = .ok x) := by
  have hd : matchDigitsPlus (normalizeDigits x) = true :=
    matchDigitsPlus_normalize x (le_trans (by decide) hlo)
  obtain ⟨e, he, hefmt⟩ := henc (normalizeDigits x) hd hlo hhi
  have hx0 : x ≠ "" := by
    intro h0
    rw [h0] at hlo
    exact absurd hlo (by decide)
  refine ⟨tagFpe e, ?_, ?_, ?_⟩
  · unfold FPEService.encrypt
    rw [if_neg hx0, if_neg (by simp [hx]), if_neg (by simp [hd]),
      if_neg (by rw [not_or]; exact ⟨not_lt.mpr hlo, not_lt.mpr hhi⟩), he]
  · unfold FPEService.decrypt
    rw [if_neg (tag_ne_empty e), if_neg (by simp [isEncrypted_tag]), jsDropChars_tag,
      if_neg (by simp [hefmt]), hround (normalizeDigits x) e he]
  · intro hn
    unfold FPEService.decrypt
    rw [if_neg (tag_ne_empty e), if_neg (by simp [isEncrypted_tag]), jsDropChars_tag,
      if_neg (by simp [hefmt]), hround (normalizeDigits x) e he, hn]

/-- Witness for the amended claim C3 with the identity cipher at the example
input of the spec. -/
theorem roundtrip_normalized_witness :
    (FPEService.decrypt cId "ENC_FPE:123456789").1 = .ok "123456789" := by
  obtain ⟨y, h1, h2, h3⟩ := roundtrip_normalized cId "123-45-6789" (by decide) (by decide)
    (by decide) (fun s hs _ _ => ⟨s, rfl, hs⟩)
    (fun s e he => by injection he with h; subst h; rfl)
  have hy : y = "ENC_FPE:123456789" := by
    have hc : (FPEService.encrypt cId "123-45-6789").1 = .ok "ENC_FPE:123456789" := by decide
    rw [hc] at h1
    injection h1 with h1
    exact h1.symm
  have hn : normalizeDigits "123-45-6789" = "123456789" := by decide
  rw [hy, hn] at h2
  exact h2

/-- Claim C4 counterexample: a failure raised by the external transform
whose message matches neither the length nor the charset pattern is still
reported to the caller as InvalidParams (wrapped by the FPE service), not as
InternalError as the claim requires. -/
theorem external_failure_invalid_params_cex :
    handleEncryptTool cfgAuthless cFail (some "1234567") none =
      .error (.invalidParams "FPE encryption failed: unexpected keysize") ∧
    containsSub "unexpected keysize" "FPE radix-10 requires" = false ∧
    containsSub "unexpected keysize" "FPE length must be" = false ∧
    isInternalErrorResult (handleEncryptTool cfgAuthless cFail (some "1234567") none) = false := by
  decide

/-- Claim C4 amended: every failure raised by the external transform during
an authorized encrypt call on a domain-valid input is caught inside the FPE
service and reported to the caller as InvalidParams with the FPE encryption
failed message; the length and charset pattern mapping of the handler catch
block, with InternalError for everything else, applies only to errors that
are not McpError values, which the transform path never produces. -/
theorem external_failure_mapping (cfg : AuthConfig) (c : FF3Cipher) (v m : String)
    (hmode : cfg.mode = .authless)
    (hv : v ≠ "") (hne : isEncrypted v = false)
    (hd : matchDigitsPlus (normalizeDigits v) = true)
    (hlo : MIN_LENGTH ≤ jsLen (normalizeDigits v))
    (hhi : jsLen (normalizeDigits v) ≤ MAX_LENGTH)
    (herr : c.enc (normalizeDigits v) = .error m) :
    handleEncryptTool cfg c (some v) none =
      .error (.invalidParams ("FPE encryption failed: " ++ m)) ∧
    (∀ msg, toolCatch (.raw msg) =
        if containsSub msg "FPE radix-10 requires" || containsSub msg "FPE length must be" then
          .invalidParams msg
        else .internalError ("Tool execution failed: " ++ msg)) := by
  constructor
  · unfold handleEncryptTool
    have hauth : stdioAuthorizeOrThrow cfg none = .allowed := by
      unfold stdioAuthorizeOrThrow
      rw [if_pos (Or.inl hmode)]
    rw [hauth]
    have henc : (FPEService.encrypt c v).1 =
        .error (.invalidParams ("FPE encryption failed: " ++ m)) := by
      unfold FPEService.encrypt
      rw [if_neg hv, if_neg (by simp [hne]), if_neg (by simp [hd]),
        if_neg (by rw [not_or]; exact ⟨not_lt.mpr hlo, not_lt.mpr hhi⟩), herr]
    simp [hv, henc, toolCatch]
  · intro msg
    rfl

/-- Witness for the amended claim C4. -/
theorem external_failure_mapping_witness :
    handleEncryptTool cfgAuthless cFail (some "123456") none =
      .error (.invalidParams ("FPE encryption failed: " ++ "unexpected keysize")) :=
  (external_failure_mapping cfgAuthless cFail "123456" "unexpected keysize" rfl
    (by decide) (by decide) (by decide) (by decide) (by decide) rfl).1

theorem Registry.find_set_self (r : Registry) (k : String) (v : Transport) :
    Registry.find (Registry.set r k v) k = some v := by
  induction r with
  | nil => simp [Registry.set, Registry.find]
  | cons p r ih =>
    obtain ⟨k₁, v₁⟩ := p
    by_cases h : k₁ = k
    · simp [Registry.set, h, Registry.find]
    · simp [Registry.set, h, Registry.find, ih]

theorem Registry.find_set_other (r : Registry) (k k' : String) (v : Transport)
    (h : k' ≠ k) : Registry.find (Registry.set r k v) k' = Registry.find r k' := by
  induction r with
  | nil => simp [Registry.set, Registry.find, Ne.symm h]
  | cons p r ih =>
    obtain ⟨k₁, v₁⟩ := p
    by_cases h1 : k₁ = k
    · subst h1
      simp [Registry.set, Registry.find, Ne.symm h]
    · simp [Registry.set, h1, Registry.find, ih]

theorem Registry.mem_keys_set (r : Registry) (k a : String) (v : Transport) :
    a ∈ Registry.keys (Registry.set r k v) ↔ a = k ∨ a ∈ Registry.keys r := by
  induction r with
  | nil => simp [Registry.set, Registry.keys]
  | cons p r ih =>
    obtain ⟨k₁, v₁⟩ := p
    by_cases h1 : k₁ = k
    · subst h1
      have hk : Registry.set ((k₁, v₁) :: r) k₁ v = (k₁, v) :: r := by
        simp [Registry.set]
      rw [hk]
      have hk1 : Registry.keys ((k₁, v) :: r) = k₁ :: Registry.keys r := rfl
      have hk2 : Registry.keys ((k₁, v₁) :: r) = k₁ :: Registry.keys r := rfl
      rw [hk1, hk2]
      simp
    · have hk : Registry.set ((k₁, v₁) :: r) k v = (k₁, v₁) :: Registry.set r k v := by
        simp [Registry.set, h1]
      rw [hk]
      have hk1 : Registry.keys ((k₁, v₁) :: Registry.set r k v) =
          k₁ :: Registry.keys (Registry.set r k v) := rfl
      have hk2 : Registry.keys ((k₁, v₁) :: r) = k₁ :: Registry.keys r := rfl
      rw [hk1, hk2]
      simp [ih]
      tauto

theorem Registry.keys_set_nodup (r : Registry) (k : String) (v : Transport)
    (h : (Registry.keys r).Nodup) : (Registry.keys (Registry.set r k v)).Nodup := by
  induction r with
  | nil => simp [Registry.set, Registry.keys]
  | cons p r ih =>
    obtain ⟨k₁, v₁⟩ := p
    have h' : k₁ ∉ Registry.keys r ∧ (Registry.keys r).Nodup := by
      have hk : Registry.keys ((k₁, v₁) :: r) = k₁ :: Registry.keys r := rfl
      rw [hk, List.nodup_cons] at h
      exact h
    by_cases h1 : k₁ = k
    · subst h1
      have hk : Registry.keys (Registry.set ((k₁, v₁) :: r) k₁ v) = k₁ :: Registry.keys r := by
        simp [Registry.set, Registry.keys]
      rw [hk, List.nodup_cons]
      exact h'
    · have hk : Registry.keys (Registry.set ((k₁, v₁) :: r) k v) =
          k₁ :: Registry.keys (Registry.set r k v) := by
        simp [Registry.set, h1, Registry.keys]
      rw [hk, List.nodup_cons]
      refine ⟨?_, ih h'.2⟩
      intro hmem
      rcases (Registry.mem_keys_set r k k₁ v).mp hmem with hh | hh
      · exact h1 hh
      · exact h'.1 hh

theorem Registry.find_del_self (r : Registry) (k : String) :
    Registry.find (Registry.del r k) k = none := by
  induction r with
  | nil => simp [Registry.del, Registry.find]
  | cons p r ih =>
    obtain ⟨k₁, v₁⟩ := p
    by_cases h : k₁ = k
    · simp [Registry.del, h, ih]
    · simp [Registry.del, h, Registry.find, ih]

theorem Registry.find_del_other (r : Registry) (k k' : String) (h : k' ≠ k) :
    Registry.find (Registry.del r k) k' = Registry.find r k' := by
  induction r with
  | nil => simp [Registry.del]
  | cons p r ih =>
    obtain ⟨k₁, v₁⟩ := p
    by_cases h1 : k₁ = k
    · subst h1
      simp [Registry.del, Registry.find, Ne.symm h, ih]
    · simp [Registry.del, h1, Registry.find, ih]

theorem Registry.del_absent (r : Registry) (k : String)
    (h : Registry.find r k = none) : Registry.del r k = r := by
  induction r with
  | nil => rfl
  | cons p r ih =>
    obtain ⟨k₁, v₁⟩ := p
    by_cases h1 : k₁ = k
    · subst h1
      simp [Registry.find] at h
    · simp [Registry.find, h1] at h
      simp [Registry.del, h1, ih h]

/-- Claim C5 counterexample: session creation consults the generator exactly
once and performs no collision check: with a registry already holding the id
a and a generator whose next draws are a then b, the created session is
stored under the colliding id a, overwriting the existing transport, while
the regenerate-and-retry creation described by the spec would have produced
the fresh id b. -/
theorem session_create_no_retry_cex :
    sessionCreate (fun n => if n = 0 then "a" else "b") 0 2 [("a", 1)] =
      ("a", 1, [("a", 2)]) ∧
    Registry.find [("a", 1)] "a" = some 1 ∧
    specCreateRetry 2 (fun n => if n = 0 then "a" else "b") 0 [("a", 1)] =
      some ("b", 2) := by decide

/-- Claim C5 amended: session creation draws exactly one id from the
cryptographically random generator, with no registry-aware retry (the
generator takes no arguments and cannot observe the registry); the new
transport is stored under that id, overwriting any colliding entry with no
caller-visible failure, leaving other entries unchanged; distinctness of the
stored ids is preserved by the write, but uniqueness across the registry
lifetime is only probabilistic, not enforced. -/
theorem session_create_overwrites (gen : Nat → String) (ctr : Nat) (tr : Transport)
    (r : Registry) :
    sessionCreate gen ctr tr r = (gen ctr, ctr + 1, Registry.set r (gen ctr) tr) ∧
    Registry.find (Registry.set r (gen ctr) tr) (gen ctr) = some tr ∧
    (∀ k, k ≠ gen ctr →
        Registry.find (Registry.set r (gen ctr) tr) k = Registry.find r k) ∧
    ((Registry.keys r).Nodup → (Registry.keys (Registry.set r (gen ctr) tr)).Nodup) :=
  ⟨rfl, Registry.find_set_self r (gen ctr) tr,
   fun k hk => Registry.find_set_other r (gen ctr) k tr hk,
   fun h => Registry.keys_set_nodup r (gen ctr) tr h⟩

/-- Witness for the amended claim C5. -/
theorem session_create_overwrites_witness :
    Registry.find (Registry.set [("a", 1)] "b" 2) "b" = some 2 ∧
    Registry.find (Registry.set [("a", 1)] "b" 2) "a" = some 1 ∧
    (Registry.keys (Registry.set [("a", 1)] "b" 2)).Nodup :=
  have h := session_create_overwrites (fun _ => "b") 0 2 [("a", 1)]
  ⟨h.2.1, (h.2.2.1 "a" (by decide)).trans (by decide), h.2.2.2 (by decide)⟩

/-- Claim C6 counterexample: the DELETE endpoint answers a removal request
for an id absent from the registry with the Session not found error
response, not with a silent no-op success (the registry itself is left
unchanged). -/
theorem session_remove_endpoint_errors_cex :
    deleteEndpoint [("b", 1)] (some "a") = (.sessionNotFound, [("b", 1)]) ∧
    DeleteResult.sessionNotFound ≠ DeleteResult.handled := by decide

/-- Claim C6 amended: the registry level removal (the onclose delete) is
idempotent: deleting an absent id leaves the registry unchanged, deleting a
present id leaves the registry without that id and with all other entries
intact; the DELETE endpoint however reports the Session not found error for
an absent id, without mutating the registry, and hands a present id to the
transport whose close removes the entry. -/
theorem session_remove_idempotent (r : Registry) (sid k : String) :
    (Registry.find r sid = none → Registry.del r sid = r) ∧
    Registry.find (Registry.del r sid) sid = none ∧
    (k ≠ sid → Registry.find (Registry.del r sid) k = Registry.find r k) ∧
    (Registry.find r sid = none → deleteEndpoint r (some sid) = (.sessionNotFound, r)) ∧
    (∀ v, Registry.find r sid = some v → sid ≠ "" →
        deleteEndpoint r (some sid) = (.handled, Registry.del r sid)) := by
  refine ⟨Registry.del_absent r sid, Registry.find_del_self r sid,
    fun hk => Registry.find_del_other r sid k hk, ?_, ?_⟩
  · intro h
    simp only [deleteEndpoint]
    by_cases h0 : sid = ""
    · rw [if_pos h0]
    · rw [if_neg h0, h]
  · intro v h h0
    simp only [deleteEndpoint]
    rw [if_neg h0, h]

/-- Witness for the amended claim C6. -/
theorem session_remove_idempotent_witness :
    Registry.del [("a", 1)] "b" = [("a", 1)] ∧
    Registry.find (Registry.del [("a", 1)] "a") "a" = none ∧
    deleteEndpoint [("a", 1)] (some "b") = (.sessionNotFound, [("a", 1)]) ∧
    deleteEndpoint [("a", 1)] (some "a") = (.handled, Registry.del [("a", 1)] "a") :=
  have h1 := session_remove_idempotent [("a", 1)] "b" "a"
  have h2 := session_remove_idempotent [("a", 1)] "a" "b"
  ⟨h1.1 (by decide), h2.2.1, h1.2.2.2.1 (by decide), h2.2.2.2.2 1 (by decide) (by decide)⟩

/-- Claim C7 counterexample: an input already carrying the ENC_FPE: tag
whose normalized digit string is shorter than six digits is returned
unchanged by encrypt, a success rather than the InvalidParams failure the
claim requires (the transform is still not invoked). -/
theorem encrypt_short_tagged_cex :
    jsLen (normalizeDigits "ENC_FPE:123") < MIN_LENGTH ∧
    FPEService.encrypt cId "ENC_FPE:123" = (.ok "ENC_FPE:123", []) ∧
    isInvalidParamsResult (FPEService.encrypt cId "ENC_FPE:123").1 = false := by decide

/-- Claim C7 amended: for every input that does not already carry the
ENC_FPE: tag and whose normalized digit string is shorter than six digits,
encrypt fails with an InvalidParams condition and the external forward
operation is never invoked. -/
theorem encrypt_short_input_rejected (c : FF3Cipher) (v : String)
    (hne : isEncrypted v = false)
    (hlen : jsLen (normalizeDigits v) < MIN_LENGTH) :
    isInvalidParamsResult (FPEService.encrypt c v).1 = true ∧
    (FPEService.encrypt c v).2 = [] := by
  unfold FPEService.encrypt
  by_cases h0 : v = ""
  · rw [if_pos h0]
    exact ⟨rfl, rfl⟩
  · rw [if_neg h0, if_neg (by simp [hne])]
    by_cases h2 : matchDigitsPlus (normalizeDigits v) = true
    · rw [if_neg (by simp [h2]), if_pos (Or.inl hlen)]
      exact ⟨rfl, rfl⟩
    · rw [if_pos (by simp [h2])]
      exact ⟨rfl, rfl⟩

/-- Witness for the amended claim C7. -/
theorem encrypt_short_input_rejected_witness :
    isInvalidParamsResult (FPEService.encrypt cId "123").1 = true ∧
    (FPEService.encrypt cId "123").2 = [] :=
  encrypt_short_input_rejected cId "123" (by decide) (by decide)

end FpeDemo
